import Mathlib

/-!
Verification of the ESP-PC-Remote repository: a shallow embedding of the
Node.js backend flag service (backend/main.js) and of the ESP32 firmware
(main/main.ino), together with theorems settling the specification's
testable properties.

Conventions:
- machine `unsigned long` (32-bit on ESP32) arithmetic is modelled as `Nat`
  with explicit reduction modulo `2^32`;
- the wall clock, `millis()` readings and HTTP observations are passed to
  the embedded functions as explicit parameters;
- `ESP.restart()` terminates the running process: statements after it never
  execute, and on the next boot every global variable holds its initializer.
-/

namespace PCRemote

/-! ## HTTP methods (shared by backend and device) -/

/-- HTTP request methods distinguished by the two servers.  The Node backend
only distinguishes GET from everything else; the ESP32 WebServer routes in
setup() are all registered for HTTP_GET. -/
inductive Method
  | GET
  | POST
  | PUT
  | DELETE
  deriving DecidableEq, Repr, BEq

/-! ## Backend flag service (backend/main.js) -/

/-- HTTP response of the backend: status code and JSON body string. -/
structure BackendResponse where
  status : Nat
  body : String
  deriving DecidableEq, Repr

/-- Body produced by `JSON.stringify({ on: isOn })`. -/
def onBody (b : Bool) : String :=
  "\x7b\"on\":" ++ (if b then "true" else "false") ++ "\x7d"

/-- Body produced for `GET /set/on`. -/
def setOnBody : String :=
  "\x7b\"message\":\"LED state will be true for the next GET / request\"\x7d"

/-- Body produced for an unknown path. -/
def notFoundBody : String := "\x7b\"error\":\"Not Found\"\x7d"

/-- Body produced for a non-GET method. -/
def methodNotAllowedBody : String := "\x7b\"error\":\"Method Not Allowed\"\x7d"

/-- Request handler passed to `http.createServer` in backend/main.js: given the
current flag `isOn` and a request, it returns the response and the flag state
after the request.  `GET /` replies with the current flag and then resets it to
false; `GET /set/on` sets it; any other GET path is 404; any non-GET method is
405. -/
def backendHandle (isOn : Bool) (m : Method) (url : String) : BackendResponse × Bool :=
  match m with
  | .GET =>
    if url = "/" then (⟨200, onBody isOn⟩, false)
    else if url = "/set/on" then (⟨200, setOnBody⟩, true)
    else (⟨404, notFoundBody⟩, isOn)
  | _ => (⟨405, methodNotAllowedBody⟩, isOn)

/-- Run of the backend over a request sequence from a given flag state,
collecting the responses in order and the final flag state. -/
def backendRun : Bool → List (Method × String) → List BackendResponse × Bool
  | s, [] => ([], s)
  | s, r :: rs =>
    let step := backendHandle s r.1 r.2
    let rest := backendRun step.2 rs
    (step.1 :: rest.1, rest.2)

/-- Request `GET /set/on`. -/
def setOnReq : Method × String := (.GET, "/set/on")

/-! ## Device route registration (main.ino, setup(), lines 166-171) -/

/-- Handlers defined in main.ino that a route could be bound to. -/
inductive Handler
  | handlePowerOn
  | handleRoot
  | handleConfigTailwind
  | handleLogTailwind
  | handleConfigPost
  deriving DecidableEq, Repr

/-- Routes registered by setup() via `server.on(...)`, in registration order.
Every registration uses HTTP_GET; no handler is registered for HTTP_POST on
any path (in particular, `handleConfigPost` is defined in the source but never
registered). -/
def registeredRoutes : List (String × Method × Handler) :=
  [("/on", .GET, .handlePowerOn),
   ("/", .GET, .handleRoot),
   ("/config", .GET, .handleConfigTailwind),
   ("/log", .GET, .handleLogTailwind)]

/-- Request dispatch of the ESP32 WebServer: the first registered handler whose
URI and method both match is invoked; `none` means no handler matches and the
server falls back to its default not-found (404) response. -/
def dispatch (m : Method) (uri : String) : Option Handler :=
  (registeredRoutes.find? fun r => r.1 == uri && r.2.1 == m).map fun r => r.2.2

/-! ## Device configuration (main.ino, struct Config and handleConfigPost) -/

/-- Runtime configuration struct of main.ino (lines 36-47). -/
structure Config where
  wifi_ssid : String
  wifi_password : String
  api_url : String
  static_ip : String
  gateway : String
  subnet : String
  dns1 : String
  dns2 : String
  reboot_hour : Int
  reboot_minute : Int
  deriving DecidableEq, Repr

/-- Arduino `String::toInt` on a well-formed decimal string; non-numeric input
yields 0. -/
def arduinoToInt (s : String) : Int := s.toInt?.getD 0

/-- Outcome of handleConfigPost (lines 597-612): the configuration after the
field-wise overwrite (persisted by saveConfig), the HTTP response, the delay
before restart, and the fact that the device restarts. -/
structure ConfigPostResult where
  saved : Config
  responseStatus : Nat
  responseBody : String
  delayBeforeRestartMs : Nat
  restarts : Bool
  deriving DecidableEq, Repr

/-- handleConfigPost (main.ino lines 597-612): each field present among the
request arguments (`server.hasArg`) overwrites the corresponding Config field;
the result is persisted, an acknowledgment page is sent, and after a 1500 ms
delay the device restarts.  `arg f = some v` models `server.hasArg(f)` being
true with `server.arg(f) = v`.  Note: this handler is never registered with the
server in setup(), so no request ever reaches it. -/
def handleConfigPost (c : Config) (arg : String → Option String) : ConfigPostResult :=
  let c := match arg "ssid" with | some v => { c with wifi_ssid := v } | none => c
  let c := match arg "wifipw" with | some v => { c with wifi_password := v } | none => c
  let c := match arg "apiurl" with | some v => { c with api_url := v } | none => c
  let c := match arg "staticip" with | some v => { c with static_ip := v } | none => c
  let c := match arg "gateway" with | some v => { c with gateway := v } | none => c
  let c := match arg "subnet" with | some v => { c with subnet := v } | none => c
  let c := match arg "dns1" with | some v => { c with dns1 := v } | none => c
  let c := match arg "dns2" with | some v => { c with dns2 := v } | none => c
  let c := match arg "reboot_hour" with
    | some v => { c with reboot_hour := arduinoToInt v } | none => c
  let c := match arg "reboot_minute" with
    | some v => { c with reboot_minute := arduinoToInt v } | none => c
  ⟨c, 200, "<html><body><h2>Config Saved! Rebooting...</h2></body></html>", 1500, true⟩

/-! ## Remote flag poll (main.ino, checkAPI, lines 614-659) -/

/-- Outcome of `deserializeJson` on the payload of a 200 response: either a
DeserializationError, or a parsed document whose `on` member is either a
boolean or absent/null (`none`). -/
inductive ParseOutcome
  | parseErr
  | parsed (onField : Option Bool)
  deriving DecidableEq, Repr

/-- ArduinoJson conversion `doc["on"]` to bool: a missing or null member
converts to false; a boolean member converts to itself. -/
def jsonVariantAsBool (v : Option Bool) : Bool := v.getD false

/-- Observable effects of one checkAPI invocation: the status string written to
`lastStatus`, whether `triggerRelay()` was invoked, and whether
`lastGoodAPITime` was refreshed. -/
structure CheckResult where
  lastStatus : String
  relayTriggered : Bool
  apiTimeRefreshed : Bool
  deriving DecidableEq, Repr

/-- checkAPI (main.ino lines 614-659), given the result of `http.GET()` and,
when the code is 200, the parse of the payload.  `httpCode ≤ 0` is the
HTTPClient encoding of a connection failure / timeout (no response). -/
def checkAPI (httpCode : Int) (body : ParseOutcome) : CheckResult :=
  if httpCode = 200 then
    match body with
    | .parsed onField =>
      if jsonVariantAsBool onField then ⟨"API Triggered ON", true, true⟩
      else ⟨"API: OFF", false, true⟩
    | .parseErr => ⟨"API Parse Error", false, true⟩
  else if 0 < httpCode then ⟨"API Error: " ++ toString httpCode, false, false⟩
  else ⟨"API Offline", false, false⟩

/-- Status classification written from the words of spec section 4.2, for
comparison with the source-derived `checkAPI`: 200 with a parseable body
records the triggered-on/off status, 200 with an unparseable body the
parse-error status, any other positive status the HTTP-error status including
the code, and no response the offline status. -/
def specPollStatus (httpCode : Int) (body : ParseOutcome) : String :=
  if httpCode = 200 then
    match body with
    | .parsed onField => if jsonVariantAsBool onField then "API Triggered ON" else "API: OFF"
    | .parseErr => "API Parse Error"
  else if 0 < httpCode then "API Error: " ++ toString httpCode
  else "API Offline"

/-! ## Relay driver (main.ino, triggerRelay, lines 661-668) -/

/-- Levels of the relay GPIO pin; LOW is the active level, HIGH the inactive
one. -/
inductive PinLevel
  | LOW
  | HIGH
  deriving DecidableEq, Repr

/-- Pin-affecting operations, in program order. -/
inductive RelayEvent
  | digitalWrite (level : PinLevel)
  | delayMs (ms : Nat)
  deriving DecidableEq, Repr

/-- Sequence of pin operations performed by one invocation of triggerRelay
(main.ino lines 661-668): `digitalWrite(RELAY_PIN, LOW); delay(1000);
digitalWrite(RELAY_PIN, HIGH)`. -/
def triggerRelay : List RelayEvent := [.digitalWrite .LOW, .delayMs 1000, .digitalWrite .HIGH]

/-- Interpretation of an event list from an initial pin level: the list of
(level, duration) dwell segments in which time passes, and the pin level on
return. -/
def relaySegments : PinLevel → List RelayEvent → List (PinLevel × Nat) × PinLevel
  | p, [] => ([], p)
  | _, .digitalWrite l :: es => relaySegments l es
  | p, .delayMs d :: es =>
    let rest := relaySegments p es
    ((p, d) :: rest.1, rest.2)

/-! ## Event log ring buffer (main.ino, addLog, lines 69-85) -/

/-- Capacity of the log ring buffer (`#define LOG_SIZE 20`). -/
def LOG_SIZE : Nat := 20

/-- State of the log: the buffer array `logBuffer[LOG_SIZE]` and the write
cursor `logIndex`. -/
structure LogState where
  logBuffer : List String
  logIndex : Nat
  deriving DecidableEq, Repr

/-- Initial log state: LOG_SIZE empty strings, cursor 0 (C++ globals are
zero/default initialized). -/
def initLogState : LogState := ⟨List.replicate LOG_SIZE "", 0⟩

/-- Stored form of a log entry: `"[" + getTimeString() + "] " + msg`. -/
def logEntry (timeStr msg : String) : String := "[" ++ timeStr ++ "] " ++ msg

/-- addLog (main.ino lines 82-85): write the timestamped entry at the current
cursor and advance the cursor modulo LOG_SIZE.  The wall-clock string returned
by getTimeString() is passed in as a parameter. -/
def addLog (s : LogState) (timeStr msg : String) : LogState :=
  ⟨s.logBuffer.set s.logIndex (logEntry timeStr msg), (s.logIndex + 1) % LOG_SIZE⟩

/-- Fold of addLog over a list of (time string, message) pairs. -/
def addLogs (s : LogState) (ms : List (String × String)) : LogState :=
  ms.foldl (fun t p => addLog t p.1 p.2) s

/-- Stored entries corresponding to a list of (time string, message) pairs. -/
def logEntries (ms : List (String × String)) : List String :=
  ms.map fun p => logEntry p.1 p.2

/-- Well-formedness of a log state: the buffer has exactly LOG_SIZE slots and
the cursor is in range.  This holds for the initial state and is preserved by
addLog. -/
def LogWF (s : LogState) : Prop :=
  s.logBuffer.length = LOG_SIZE ∧ s.logIndex < LOG_SIZE

/-- Concrete batch of 20 appends used to instantiate the ring-buffer theorem. -/
def sampleAppends : List (String × String) :=
  [("01:00:01", "m1"), ("01:00:02", "m2"), ("01:00:03", "m3"), ("01:00:04", "m4"),
   ("01:00:05", "m5"), ("01:00:06", "m6"), ("01:00:07", "m7"), ("01:00:08", "m8"),
   ("01:00:09", "m9"), ("01:00:10", "m10"), ("01:00:11", "m11"), ("01:00:12", "m12"),
   ("01:00:13", "m13"), ("01:00:14", "m14"), ("01:00:15", "m15"), ("01:00:16", "m16"),
   ("01:00:17", "m17"), ("01:00:18", "m18"), ("01:00:19", "m19"), ("01:00:20", "m20")]

/-! ## Watchdog reboot (main.ino, loop(), lines 214-220) -/

/-- Modulus of 32-bit `unsigned long` arithmetic on the ESP32. -/
def U32 : Nat := 4294967296

/-- Unsigned 32-bit subtraction, as `nowMillis - lastGoodTime` computes on
`unsigned long` operands. -/
def u32sub (a b : Nat) : Nat := (a % U32 + U32 - b % U32) % U32

/-- Offline threshold `maxOfflineMillis = 60UL * 60UL * 1000UL` (1 hour). -/
def maxOfflineMillis : Nat := 60 * 60 * 1000

/-- Watchdog condition of loop() line 216: the device reboots when the elapsed
millis since the last good Wi-Fi time exceed the threshold OR the elapsed
millis since the last good API time exceed the threshold. -/
def watchdogFires (nowMillis lastGoodWiFiTime lastGoodAPITime : Nat) : Bool :=
  decide (maxOfflineMillis < u32sub nowMillis lastGoodWiFiTime)
    || decide (maxOfflineMillis < u32sub nowMillis lastGoodAPITime)

/-! ## Scheduled daily reboot (main.ino, loop(), lines 233-248) -/

/-- Guard state of the scheduled daily reboot: the globals `rebootedToday` and
`lastRebootDay`. -/
structure SchedState where
  rebootedToday : Bool
  lastRebootDay : Int
  deriving DecidableEq, Repr

/-- Values of the guard globals at boot: `rebootedToday = false`,
`lastRebootDay = -1` (lines 74-75). -/
def bootSchedState : SchedState := ⟨false, -1⟩

/-- Local wall-clock fields read from `localtime` in loop(). -/
structure WallClock where
  tm_mday : Int
  tm_hour : Int
  tm_min : Int
  deriving DecidableEq, Repr

/-- One pass of the scheduled-reboot check (loop() lines 233-248) with
configured reboot time rh:rm.  Returns whether `ESP.restart()` is invoked and
the guard state afterwards in the same process.  The assignments
`rebootedToday = true; lastRebootDay = t->tm_mday;` at lines 242-243 stand
after `ESP.restart()` and therefore never execute, so a triggering pass leaves
the state unchanged (the process then dies). -/
def schedCheck (rh rm : Int) (s : SchedState) (t : WallClock) : Bool × SchedState :=
  if t.tm_hour = rh ∧ t.tm_min = rm then
    if s.rebootedToday = false ∨ t.tm_mday ≠ s.lastRebootDay then (true, s)
    else (false, s)
  else if t.tm_mday ≠ s.lastRebootDay then (false, { s with rebootedToday := false })
  else (false, s)

/-- Run of successive loop passes of the scheduled-reboot check with restart
semantics: when a pass triggers `ESP.restart()`, the process ends and the next
pass starts from the boot values of the guard globals.  Returns the number of
restarts performed and the final guard state. -/
def schedRun (rh rm : Int) (s : SchedState) (ts : List WallClock) : Nat × SchedState :=
  ts.foldl
    (fun acc t =>
      let step := schedCheck rh rm acc.2 t
      if step.1 then (acc.1 + 1, bootSchedState) else (acc.1, step.2))
    (0, s)

/-! ## Theorems: backend flag service -/

/-- C5: for every sequence of backend requests and every flag state reached by
it, a GET request to / returns HTTP 200 with body on-body of the flag's value
at that call and leaves the flag false immediately afterward, regardless of
prior state. -/
theorem backend_root_read_and_clear (reqs : List (Method × String)) :
    backendHandle (backendRun false reqs).2 .GET "/"
      = (⟨200, onBody (backendRun false reqs).2⟩, false) := by
  cases h : (backendRun false reqs).2 <;> rfl

theorem backendRun_setOn_cons (s : Bool) (l : List (Method × String)) :
    backendRun s (setOnReq :: l)
      = (⟨200, setOnBody⟩ :: (backendRun true l).1, (backendRun true l).2) := rfl

theorem backendRun_replicate_setOn (n : Nat) (rest : List (Method × String)) :
    backendRun true (List.replicate n setOnReq ++ rest)
      = ((List.replicate n ⟨200, setOnBody⟩ : List BackendResponse) ++ (backendRun true rest).1,
         (backendRun true rest).2) := by
  induction n with
  | zero => rfl
  | succ n ih =>
    rw [List.replicate_succ, List.cons_append, backendRun_setOn_cons, ih, List.replicate_succ,
      List.cons_append]

/-- C6: starting from any backend flag state, one GET /set/on, followed by any
number of further GET /set/on calls, followed by two GET / calls, yields
on-true from the first GET / and on-false from the second: the set flag is
consumed by exactly one read. -/
theorem backend_set_on_consumed_exactly_once (s : Bool) (n : Nat) :
    (backendRun s ((setOnReq :: List.replicate n setOnReq) ++ [(.GET, "/"), (.GET, "/")])).1
      = List.replicate (n + 1) ⟨200, setOnBody⟩ ++ [⟨200, onBody true⟩, ⟨200, onBody false⟩] := by
  rw [List.cons_append, backendRun_setOn_cons, backendRun_replicate_setOn, List.replicate_succ,
    List.cons_append]
  rfl

/-- C7: every GET to a path other than / and /set/on gets 404 with the
not-found body; every non-GET request — to any path whatsoever, the registered
paths / and /set/on included — gets 405 with the method-not-allowed body; in
both cases the flag is unchanged, so a previously set flag is still pending
for the next GET /. -/
theorem backend_unknown_path_and_method (s : Bool) (m : Method) (url : String)
    (h1 : url ≠ "/") (h2 : url ≠ "/set/on") :
    backendHandle s .GET url = (⟨404, notFoundBody⟩, s)
    ∧ (∀ u : String, m ≠ .GET → backendHandle s m u = (⟨405, methodNotAllowedBody⟩, s))
    ∧ (backendHandle (backendHandle s .GET url).2 .GET "/").1 = ⟨200, onBody s⟩
    ∧ (∀ u : String, m ≠ .GET →
        (backendHandle (backendHandle s m u).2 .GET "/").1 = ⟨200, onBody s⟩) := by
  have hg : backendHandle s .GET url = (⟨404, notFoundBody⟩, s) := by
    simp [backendHandle, h1, h2]
  have hng : ∀ u : String, m ≠ .GET → backendHandle s m u = (⟨405, methodNotAllowedBody⟩, s) := by
    intro u hm
    cases m with
    | GET => exact absurd rfl hm
    | POST => rfl
    | PUT => rfl
    | DELETE => rfl
  refine ⟨hg, hng, ?_, ?_⟩
  · rw [hg]
    cases s <;> rfl
  · intro u hm
    rw [hng u hm]
    cases s <;> rfl

theorem backend_unknown_path_and_method_witness :
    ("/on/off-path" : String) ≠ "/" ∧ ("/on/off-path" : String) ≠ "/set/on"
    ∧ backendHandle true .GET "/on/off-path" = (⟨404, notFoundBody⟩, true)
    ∧ backendHandle true .POST "/on/off-path" = (⟨405, methodNotAllowedBody⟩, true)
    ∧ backendHandle true .POST "/" = (⟨405, methodNotAllowedBody⟩, true)
    ∧ backendHandle true .POST "/set/on" = (⟨405, methodNotAllowedBody⟩, true)
    ∧ (backendHandle (backendHandle true .GET "/on/off-path").2 .GET "/").1
        = ⟨200, onBody true⟩
    ∧ (backendHandle (backendHandle true .POST "/").2 .GET "/").1 = ⟨200, onBody true⟩ := by
  have h := backend_unknown_path_and_method true .POST "/on/off-path" (by decide) (by decide)
  exact ⟨by decide, by decide, h.1, h.2.1 "/on/off-path" (by decide), h.2.1 "/" (by decide),
    h.2.1 "/set/on" (by decide), h.2.2.1, h.2.2.2 "/" (by decide)⟩

/-! ## Theorems: device route dispatch -/

/-- C3 (code bug): the device's request dispatch has no registration for
POST /config, so the configuration-submission handler handleConfigPost is
never invoked; a POST to /config falls through to the server's default 404.
Only a GET registration for /config exists (bound to handleConfigTailwind). -/
theorem config_post_route_not_registered :
    dispatch .POST "/config" = none
    ∧ dispatch .GET "/config" = some .handleConfigTailwind
    ∧ (handleConfigPost ⟨"", "", "", "", "", "", "", "", 3, 0⟩ fun _ => none).restarts = true := by
  refine ⟨rfl, rfl, rfl⟩

/-! ## Theorems: scheduled daily reboot -/

/-- C2 (code bug): with the default reboot time 03:00, two successive loop
passes on day 5 at 03:00 — the second one after the restart triggered by the
first — both invoke ESP.restart(): the per-day guard is never set because the
assignments to rebootedToday and lastRebootDay stand after ESP.restart() and
never execute, so the scheduled reboot fires more than once in the same
calendar day. -/
theorem scheduled_reboot_fires_twice_same_day :
    schedRun 3 0 bootSchedState [⟨5, 3, 0⟩, ⟨5, 3, 0⟩] = (2, bootSchedState)
    ∧ schedCheck 3 0 bootSchedState ⟨5, 3, 0⟩ = (true, bootSchedState) := by
  exact ⟨rfl, rfl⟩

/-! ## Theorems: relay driver -/

/-- C9: from any initial pin level, one invocation of triggerRelay produces
exactly one dwell segment — the pin at the active level LOW for 1000 ms — and
on return the pin is at the inactive level HIGH. -/
theorem triggerRelay_pulse (p : PinLevel) :
    relaySegments p triggerRelay = ([(.LOW, 1000)], .HIGH) := by
  cases p <;> rfl

/-! ## Theorems: remote flag poll -/

/-- C4: for every backend response observed by one checkAPI invocation, the
status string written equals the spec's classification into the four defined
statuses (triggered-on/off, parse error, HTTP error with code, offline), and
the relay trigger is invoked if and only if the response is HTTP 200 with a
parseable body whose `on` member is the boolean true. -/
theorem checkAPI_classification (httpCode : Int) (body : ParseOutcome) :
    (checkAPI httpCode body).lastStatus = specPollStatus httpCode body
    ∧ ((checkAPI httpCode body).relayTriggered = true
        ↔ httpCode = 200 ∧ body = .parsed (some true)) := by
  constructor
  · unfold checkAPI specPollStatus
    cases body with
    | parseErr => split_ifs <;> rfl
    | parsed f => rcases f with _ | b
                  · split_ifs <;> rfl
                  · cases b <;> split_ifs <;> rfl
  · unfold checkAPI
    cases body with
    | parseErr => split_ifs <;> simp
    | parsed f =>
      cases f with
      | none => split_ifs <;> simp_all [jsonVariantAsBool]
      | some b => cases b <;> split_ifs <;> simp_all [jsonVariantAsBool]

/-- C10: a checkAPI invocation that receives HTTP 200 with a body that is
valid JSON but has no boolean `on` member ({} and also on-is-null both parse
to an absent member, which ArduinoJson converts to false) records the
"API: OFF" status — not a parse-error status — does not trigger the relay,
and still refreshes the last-good-API time. -/
theorem checkAPI_missing_on_defaults_off :
    checkAPI 200 (.parsed none) = ⟨"API: OFF", false, true⟩ := rfl

/-! ## Theorems: watchdog reboot -/

/-- C1 fails as stated: at millis 4000000 with the last good Wi-Fi time at 0
and the last good API time at 4000000, only the Wi-Fi timestamp is beyond the
1-hour threshold, yet the watchdog fires — the source condition is a
disjunction, not the claimed conjunction. -/
theorem watchdog_fires_with_single_stale_timestamp :
    watchdogFires 4000000 0 4000000 = true
    ∧ ¬ (maxOfflineMillis < u32sub 4000000 0 ∧ maxOfflineMillis < u32sub 4000000 4000000) := by
  exact ⟨rfl, by decide⟩

/-- C1 amended: the watchdog reboot fires if and only if at least one of the
last-good-Wi-Fi and last-good-flag-check timestamps is older than the 1-hour
threshold, with staleness computed as a 32-bit elapsed-millis comparison; the
decision is invariant under shifting all millis readings by a common offset,
hence independent of wall-clock synchronization. -/
theorem watchdog_fires_iff_either_stale (now w a d : Nat) :
    (watchdogFires now w a = true
      ↔ (maxOfflineMillis < u32sub now w ∨ maxOfflineMillis < u32sub now a))
    ∧ watchdogFires (now + d) (w + d) (a + d) = watchdogFires now w a := by
  constructor
  · simp [watchdogFires]
  · have h : ∀ x y : Nat, u32sub (x + d) (y + d) = u32sub x y := by
      intro x y
      unfold u32sub U32
      omega
    simp [watchdogFires, h]

/-! ## Theorems: event log ring buffer -/

theorem addLog_length (s : LogState) (tm msg : String) :
    (addLog s tm msg).logBuffer.length = s.logBuffer.length :=
  List.length_set ..

theorem addLogs_length (ms : List (String × String)) (s : LogState) :
    (addLogs s ms).logBuffer.length = s.logBuffer.length := by
  induction ms generalizing s with
  | nil => rfl
  | cons a ms ih =>
    show (addLogs (addLog s a.1 a.2) ms).logBuffer.length = _
    rw [ih, addLog_length]

theorem addLog_wf {s : LogState} (h : LogWF s) (tm msg : String) : LogWF (addLog s tm msg) := by
  refine ⟨?_, ?_⟩
  · rw [addLog_length]
    exact h.1
  · exact Nat.mod_lt _ (by decide)

theorem addLogs_logIndex (ms : List (String × String)) (s : LogState)
    (h : s.logIndex < LOG_SIZE) :
    (addLogs s ms).logIndex = (s.logIndex + ms.length) % LOG_SIZE := by
  induction ms generalizing s with
  | nil =>
    show s.logIndex = (s.logIndex + 0) % LOG_SIZE
    unfold LOG_SIZE at h ⊢
    omega
  | cons a ms ih =>
    have h1 : (addLog s a.1 a.2).logIndex < LOG_SIZE := Nat.mod_lt _ (by decide)
    show (addLogs (addLog s a.1 a.2) ms).logIndex = _
    rw [ih _ h1]
    show ((s.logIndex + 1) % LOG_SIZE + ms.length) % LOG_SIZE
        = (s.logIndex + (a :: ms).length) % LOG_SIZE
    rw [List.length_cons]
    unfold LOG_SIZE
    omega

theorem logEntries_cons (a : String × String) (ms : List (String × String)) :
    logEntries (a :: ms) = logEntry a.1 a.2 :: logEntries ms := rfl

theorem addLogs_getElem?_cases (ms : List (String × String)) (t : LogState) (j : Nat) :
    (addLogs t ms).logBuffer[j]? = t.logBuffer[j]?
    ∨ ∃ e ∈ logEntries ms, (addLogs t ms).logBuffer[j]? = some e := by
  induction ms generalizing t with
  | nil => exact Or.inl rfl
  | cons a ms ih =>
    have hstep : addLogs t (a :: ms) = addLogs (addLog t a.1 a.2) ms := rfl
    rcases ih (addLog t a.1 a.2) with h | ⟨e, he, hgot⟩
    · by_cases hj : t.logIndex = j
      · by_cases hlt : t.logIndex < t.logBuffer.length
        · refine Or.inr ⟨logEntry a.1 a.2, ?_, ?_⟩
          · rw [logEntries_cons]
            exact List.mem_cons_self _ _
          · rw [hstep, h]
            show (t.logBuffer.set t.logIndex (logEntry a.1 a.2))[j]? = _
            rw [← hj]
            exact List.getElem?_set_eq_of_lt _ hlt
        · refine Or.inl ?_
          rw [hstep, h]
          show (t.logBuffer.set t.logIndex (logEntry a.1 a.2))[j]? = t.logBuffer[j]?
          rw [List.set_eq_of_length_le (Nat.le_of_not_lt hlt)]
      · refine Or.inl ?_
        rw [hstep, h]
        show (t.logBuffer.set t.logIndex (logEntry a.1 a.2))[j]? = t.logBuffer[j]?
        exact List.getElem?_set_ne hj
    · refine Or.inr ⟨e, ?_, ?_⟩
      · rw [logEntries_cons]
        exact List.mem_cons_of_mem _ he
      · rw [hstep]
        exact hgot

theorem addLogs_covers (ms : List (String × String)) (t : LogState) (hwf : LogWF t) (j : Nat)
    (hj : j < LOG_SIZE) (hd : (j + LOG_SIZE - t.logIndex) % LOG_SIZE < ms.length) :
    ∃ e ∈ logEntries ms, (addLogs t ms).logBuffer[j]? = some e := by
  induction ms generalizing t with
  | nil => simp at hd
  | cons a ms ih =>
    have hwf' : LogWF (addLog t a.1 a.2) := addLog_wf hwf a.1 a.2
    have hstep : addLogs t (a :: ms) = addLogs (addLog t a.1 a.2) ms := rfl
    by_cases hji : t.logIndex = j
    · rcases addLogs_getElem?_cases ms (addLog t a.1 a.2) j with hc | ⟨e, he, hgot⟩
      · refine ⟨logEntry a.1 a.2, ?_, ?_⟩
        · rw [logEntries_cons]
          exact List.mem_cons_self _ _
        · rw [hstep, hc]
          show (t.logBuffer.set t.logIndex (logEntry a.1 a.2))[j]? = _
          rw [← hji]
          exact List.getElem?_set_eq_of_lt _ (by rw [hwf.1]; exact hwf.2)
      · refine ⟨e, ?_, ?_⟩
        · rw [logEntries_cons]
          exact List.mem_cons_of_mem _ he
        · rw [hstep]
          exact hgot
    · have hidx : (addLog t a.1 a.2).logIndex = (t.logIndex + 1) % LOG_SIZE := rfl
      have hd' : (j + LOG_SIZE - (addLog t a.1 a.2).logIndex) % LOG_SIZE < ms.length := by
        rw [hidx]
        rw [List.length_cons] at hd
        have h2 := hwf.2
        unfold LOG_SIZE at hd h2 hj ⊢
        omega
      rcases ih (addLog t a.1 a.2) hwf' hd' with ⟨e, he, hgot⟩
      refine ⟨e, ?_, ?_⟩
      · rw [logEntries_cons]
        exact List.mem_cons_of_mem _ he
      · rw [hstep]
        exact hgot

theorem addLogs_last_mem (ms : List (String × String)) (t : LogState) (h : LogWF t)
    (hne : ms ≠ []) :
    ∃ p ∈ ms.getLast?, logEntry p.1 p.2 ∈ (addLogs t ms).logBuffer := by
  induction ms generalizing t with
  | nil => exact absurd rfl hne
  | cons a ms ih =>
    cases ms with
    | nil =>
      refine ⟨a, by simp, ?_⟩
      show logEntry a.1 a.2 ∈ (addLog t a.1 a.2).logBuffer
      have hget : (addLog t a.1 a.2).logBuffer[t.logIndex]? = some (logEntry a.1 a.2) :=
        List.getElem?_set_eq_of_lt _ (by rw [h.1]; exact h.2)
      exact List.mem_iff_getElem?.2 ⟨t.logIndex, hget⟩
    | cons b ms2 =>
      have hrec := ih (addLog t a.1 a.2) (addLog_wf h a.1 a.2) (by simp)
      rw [List.getLast?_cons_cons]
      exact hrec

/-- C8: from any well-formed log state, the buffer never exceeds its 20-slot
capacity; after capacity+1 appends whose first stored entry differs from the
20 later ones, the first (oldest) of those entries is no longer present while
the most recently appended one is present; and each append writes at the
current write cursor and advances the cursor modulo 20. -/
theorem addLog_ring_buffer_property (s : LogState) (m0 : String × String)
    (rest : List (String × String)) (hWF : LogWF s) (hr : rest.length = LOG_SIZE)
    (hfresh : logEntry m0.1 m0.2 ∉ logEntries rest) :
    (addLogs s (m0 :: rest)).logBuffer.length = LOG_SIZE
    ∧ logEntry m0.1 m0.2 ∉ (addLogs s (m0 :: rest)).logBuffer
    ∧ (∃ p ∈ rest.getLast?, logEntry p.1 p.2 ∈ (addLogs s (m0 :: rest)).logBuffer)
    ∧ (addLogs s (m0 :: rest)).logIndex = (s.logIndex + (LOG_SIZE + 1)) % LOG_SIZE
    ∧ (∀ tm msg, (addLog s tm msg).logBuffer[s.logIndex]? = some (logEntry tm msg)
        ∧ (addLog s tm msg).logIndex = (s.logIndex + 1) % LOG_SIZE) := by
  have hwf1 : LogWF (addLog s m0.1 m0.2) := addLog_wf hWF m0.1 m0.2
  have hstep : addLogs s (m0 :: rest) = addLogs (addLog s m0.1 m0.2) rest := rfl
  refine ⟨?_, ?_, ?_, ?_, ?_⟩
  · rw [addLogs_length]
    exact hWF.1
  · intro hmem
    rw [hstep] at hmem
    rcases List.mem_iff_getElem?.1 hmem with ⟨j, hj⟩
    have hjlt : j < LOG_SIZE := by
      have hlt := (List.getElem?_eq_some.1 hj).1
      rw [addLogs_length, hwf1.1] at hlt
      exact hlt
    rcases addLogs_covers rest (addLog s m0.1 m0.2) hwf1 j hjlt
      (by rw [hr]; exact Nat.mod_lt _ (by decide)) with ⟨e, he, hgot⟩
    rw [hj] at hgot
    rw [← Option.some.inj hgot] at he
    exact hfresh he
  · rw [hstep]
    refine addLogs_last_mem rest _ hwf1 ?_
    intro hnil
    rw [hnil] at hr
    exact absurd hr (by decide)
  · rw [addLogs_logIndex _ _ hWF.2, List.length_cons, hr]
  · intro tm msg
    exact ⟨List.getElem?_set_eq_of_lt _ (by rw [hWF.1]; exact hWF.2), rfl⟩

theorem addLog_ring_buffer_property_witness :
    LogWF initLogState ∧ sampleAppends.length = LOG_SIZE
    ∧ logEntry "00:59:59" "m0" ∉ logEntries sampleAppends
    ∧ logEntry "00:59:59" "m0"
        ∉ (addLogs initLogState (("00:59:59", "m0") :: sampleAppends)).logBuffer
    ∧ (∃ p ∈ sampleAppends.getLast?,
        logEntry p.1 p.2
          ∈ (addLogs initLogState (("00:59:59", "m0") :: sampleAppends)).logBuffer) := by
  have h := addLog_ring_buffer_property initLogState ("00:59:59", "m0") sampleAppends
    ⟨by decide, by decide⟩ (by decide) (by decide)
  exact ⟨⟨by decide, by decide⟩, by decide, by decide, h.2.1, h.2.2.1⟩

end PCRemote
